import Mathlib

/-
Verification of the balance-recomputation core of the Cash-Account-Manager
ledger application.

The development shallowly embeds:
* the SQL stored procedures `fn_transaction_recompute`,
  `fn_transaction_create_and_recompute`, `fn_transaction_update_and_recompute`
  and `fn_transaction_delete_and_recompute`,
* the transaction route handlers, in both their "incremental" variant
  (balance computed relative to the previous row, with the
  "only latest transaction can be modified" gate) and their "full recompute"
  variant (all mutation delegated to the stored procedures),
* the account / membership route handlers (create and update with
  editor/viewer lists),
* the timestamp resolution helpers (`istLocalToUtcIso` and friends).

Tables are modelled as lists of rows; the `numeric` column type is modelled by
`ℚ` (exact arithmetic); timestamps are modelled by naturals carrying the total
order of `timestamptz`.
-/

namespace CashAccount

/-- Transaction row of the `transaction` table: generated primary key `id`,
owning `account_id`, creator, timestamp `transaction_date_time` (modelled as
`dt`, an instant on a total order), signed `amount`, derived running `balance`,
`title` and nullable `description`. -/
structure Txn where
  id : Nat
  account_id : Nat
  created_by : String
  dt : Nat
  amount : ℚ
  balance : ℚ
  title : String
  description : Option String
deriving DecidableEq

/-- The ordering used by `fn_transaction_recompute`:
`order by transaction_date_time, id` — ascending timestamp with ascending id
as the tie-break. -/
def txLE (a b : Txn) : Prop :=
  a.dt < b.dt ∨ (a.dt = b.dt ∧ a.id ≤ b.id)

/-- Strict variant of `txLE`; it holds exactly between distinct keys related
by `txLE`. -/
def txLT (a b : Txn) : Prop :=
  a.dt < b.dt ∨ (a.dt = b.dt ∧ a.id < b.id)

instance decTxLE : DecidableRel txLE := fun a b =>
  inferInstanceAs (Decidable (a.dt < b.dt ∨ (a.dt = b.dt ∧ a.id ≤ b.id)))

instance decTxLT : DecidableRel txLT := fun a b =>
  inferInstanceAs (Decidable (a.dt < b.dt ∨ (a.dt = b.dt ∧ a.id < b.id)))

instance totalTxLE : IsTotal Txn txLE :=
  ⟨fun a b => by simp only [txLE]; omega⟩

instance transTxLE : IsTrans Txn txLE :=
  ⟨fun a b c => by simp only [txLE]; omega⟩

/-- The `order by transaction_date_time, id` sort used by the recompute
query (any sorting algorithm realises the SQL `order by`; we use insertion
sort, which is stable like the SQL sort). -/
def sortTx (l : List Txn) : List Txn := l.insertionSort txLE

/-- The windowed aggregate
`sum(amount) over (partition by account_id order by transaction_date_time, id
rows between unbounded preceding and current row)`: walking the ordered rows,
each row's balance becomes the running sum of `amount` up to and including
itself, starting from `acc`. -/
def runningBalances (acc : ℚ) : List Txn → List Txn
  | [] => []
  | t :: ts => { t with balance := acc + t.amount } :: runningBalances (acc + t.amount) ts

/-- Rows of one account: the `where account_id = p_account_id` filter of the
recompute subquery. -/
def accountTxns (aid : Nat) (l : List Txn) : List Txn :=
  l.filter (fun t => decide (t.account_id = aid))

/-- Balance assigned to a row by the recompute update, which joins the
windowed subquery on `t.id = s.id`; a row with no partner in `s` keeps its
balance. -/
def newBalance (s : List Txn) (t : Txn) : ℚ :=
  match s.find? (fun u => decide (u.id = t.id)) with
  | some u => u.balance
  | none => t.balance

/-- The windowed subquery `s` of `fn_transaction_recompute`: the account's
rows, ordered by `(transaction_date_time, id)`, each carrying its running sum
of `amount`. -/
def recomputeSums (aid : Nat) (l : List Txn) : List Txn :=
  runningBalances 0 (sortTx (accountTxns aid l))

/-- Shallow embedding of `public.fn_transaction_recompute(p_account_id)`
(src/unnamed/part_000, lines 2-20): recompute the running balances of one
account's transactions, ordered by `(transaction_date_time, id)`, and write
each row's balance back through the join on `id`. -/
def fn_transaction_recompute (aid : Nat) (l : List Txn) : List Txn :=
  l.map (fun t => { t with balance := newBalance (recomputeSums aid l) t })

/-- Shallow embedding of `public.fn_transaction_create_and_recompute`
(src/unnamed/part_000, lines 23-47): insert the row with placeholder balance
0, recompute the account, then re-read the inserted row. -/
def fn_transaction_create_and_recompute (aid newId : Nat) (createdBy : String)
    (title : String) (descr : Option String) (amount : ℚ) (dt : Nat)
    (l : List Txn) : List Txn × Option Txn :=
  let l1 := l ++ [⟨newId, aid, createdBy, dt, amount, 0, title, descr⟩]
  let l2 := fn_transaction_recompute aid l1
  (l2, l2.find? (fun t => decide (t.id = newId)))

/-- Shallow embedding of `public.fn_transaction_update_and_recompute`
(src/unnamed/part_000, lines 50-83): update the row matching
`id = p_tx_id and account_id = p_account_id` (each field `coalesce`d with the
current value, `description` guarded by `p_description_is_set`), raise
`Transaction not found` when no row matched, and recompute the account.  The
`raise exception` is embedded as `Except.error`. -/
def fn_transaction_update_and_recompute (aid txId : Nat) (title : Option String)
    (descr : Option String) (amount : Option ℚ) (dt : Option Nat)
    (descrIsSet : Bool) (l : List Txn) : Except String (List Txn) :=
  if l.any (fun t => decide (t.id = txId ∧ t.account_id = aid)) then
    let l1 := l.map (fun t =>
      if t.id = txId ∧ t.account_id = aid then
        { t with
            title := title.getD t.title
            description := if descrIsSet then descr else t.description
            amount := amount.getD t.amount
            dt := dt.getD t.dt }
      else t)
    Except.ok (fn_transaction_recompute aid l1)
  else Except.error "Transaction not found"

/-- Database semantics of invoking `fn_transaction_update_and_recompute`: a
raised exception aborts the surrounding transaction, so the table is left
unchanged on error. -/
def applyTxUpdate (aid txId : Nat) (title : Option String)
    (descr : Option String) (amount : Option ℚ) (dt : Option Nat)
    (descrIsSet : Bool) (l : List Txn) : List Txn :=
  match fn_transaction_update_and_recompute aid txId title descr amount dt descrIsSet l with
  | Except.ok l2 => l2
  | Except.error _ => l

/-- Shallow embedding of `public.fn_transaction_delete_and_recompute`
(src/unnamed/part_000, lines 86-98): delete the row matching
`id = p_tx_id and account_id = p_account_id`, then recompute the account. -/
def fn_transaction_delete_and_recompute (aid txId : Nat) (l : List Txn) : List Txn :=
  fn_transaction_recompute aid
    (l.filter (fun t => ! decide (t.id = txId ∧ t.account_id = aid)))

/-! ### Route handlers for transactions -/

/-- JavaScript `String.prototype.trim`: strip leading and trailing
whitespace. -/
def jsTrim (s : String) : String :=
  String.mk (((s.data.dropWhile Char.isWhitespace).reverse.dropWhile Char.isWhitespace).reverse)

/-- Outcome of a route handler: a success payload, or an error body
`{"error": msg}` carried with its HTTP status. -/
inductive Resp (α : Type) where
  | ok (val : α)
  | err (status : Nat) (msg : String)
deriving DecidableEq

/-- Parsed PATCH body for a transaction: `title` is present iff the JSON
field was a string (carried untrimmed, as received); `descrIsSet` records
whether `description` appeared in the body (`null` being a valid value
distinct from absent); `amount` is present iff non-null (`Number.isFinite`
already holds — NaN and infinite inputs are rejected before this model);
`dt` is present iff `transaction_date_time` was non-null, already resolved
to an instant (its string parsing is modelled separately). -/
structure TxPatchBody where
  title : Option String
  descrIsSet : Bool
  descr : Option String
  amount : Option ℚ
  dt : Option Nat
deriving DecidableEq

/-- The query
`order by transaction_date_time desc, id desc limit 1 single()` of the
incremental handlers: the greatest row of the account under the
`(transaction_date_time, id)` key, i.e. the last row of the ascending sort;
`none` when the account has no transactions (surfaced by `single()` as an
error). -/
def latestTx (aid : Nat) (l : List Txn) : Option Txn :=
  (sortTx (accountTxns aid l)).getLast?

/-- Body of the incremental PATCH handler after its title validation
(src/src/app/api/accounts/[id]/transactions/[txId]/route.ts, lines 99-151):
when `amount` is given, the new balance is the balance of the row
immediately preceding the effective timestamp
(`lt("transaction_date_time", effectiveIso)`, ordered descending, `limit 1`),
defaulting to 0, plus the amount; an empty patch is rejected with
"No changes provided"; otherwise the matching row is updated in place. -/
def patchIncrementalRest (aid txId : Nat) (b : TxPatchBody) (latest : Txn)
    (l : List Txn) : Resp Txn × List Txn :=
  let newBal : Option ℚ :=
    match b.amount with
    | some a =>
      let effective := b.dt.getD latest.dt
      let prev := (sortTx ((accountTxns aid l).filter
        (fun t => decide (t.dt < effective)))).getLast?
      some ((prev.map Txn.balance).getD 0 + a)
    | none => none
  if b.title = none ∧ ¬ b.descrIsSet ∧ b.amount = none ∧ b.dt = none then
    (Resp.err 400 "No changes provided", l)
  else
    let l2 := l.map (fun t =>
      if t.id = txId ∧ t.account_id = aid then
        { t with
            title := match b.title with | some r => jsTrim r | none => t.title
            description := if b.descrIsSet then b.descr else t.description
            dt := b.dt.getD t.dt
            amount := b.amount.getD t.amount
            balance := newBal.getD t.balance }
      else t)
    match l2.find? (fun t => decide (t.id = txId ∧ t.account_id = aid)) with
    | some row => (Resp.ok row, l2)
    | none => (Resp.err 500 "PGRST116", l)

/-- Shallow embedding of the incremental-variant PATCH handler
(src/src/app/api/accounts/[id]/transactions/[txId]/route.ts, lines 4-159):
fetch the account's latest transaction (erroring when there is none), reject
the request with 409 unless the target is that latest row, validate the
title, then apply the patch.  Admin auth, id-format parsing and JSON parsing
sit outside the model. -/
def patchIncremental (aid txId : Nat) (b : TxPatchBody) (l : List Txn) :
    Resp Txn × List Txn :=
  match latestTx aid l with
  | none => (Resp.err 500 "no rows", l)
  | some latest =>
    if latest.id = txId then
      match b.title with
      | some rawTitle =>
        if jsTrim rawTitle = "" ∨ (jsTrim rawTitle).length < 3 ∨
            120 < (jsTrim rawTitle).length then
          (Resp.err 400 "Title must be 3-120 characters", l)
        else patchIncrementalRest aid txId b latest l
      | none => patchIncrementalRest aid txId b latest l
    else (Resp.err 409 "Only latest transaction can be modified", l)

/-- Shallow embedding of the incremental-variant DELETE handler
(src/src/app/api/accounts/[id]/transactions/[txId]/route.ts, lines 161-210):
reject with 409 unless the target is the account's latest transaction,
otherwise delete the matching row. -/
def deleteIncremental (aid txId : Nat) (l : List Txn) : Resp Bool × List Txn :=
  match latestTx aid l with
  | none => (Resp.err 500 "no rows", l)
  | some latest =>
    if latest.id = txId then
      (Resp.ok true, l.filter (fun t => ! decide (t.id = txId ∧ t.account_id = aid)))
    else (Resp.err 409 "Only latest transaction can be modified", l)

/-- RPC stage of the full-recompute PATCH handler: the empty-patch check
followed by the call to `fn_transaction_update_and_recompute`; a raised
exception surfaces as a 500 with the exception message and leaves the table
unchanged. -/
def patchFullRpc (aid txId : Nat) (b : TxPatchBody) (l : List Txn) :
    Resp Unit × List Txn :=
  if b.title = none ∧ ¬ b.descrIsSet ∧ b.amount = none ∧ b.dt = none then
    (Resp.err 400 "No changes provided", l)
  else
    match fn_transaction_update_and_recompute aid txId b.title b.descr b.amount b.dt
        b.descrIsSet l with
    | Except.ok l2 => (Resp.ok (), l2)
    | Except.error msg => (Resp.err 500 msg, l)

/-- Shallow embedding of the full-recompute PATCH handler
(src/src/app/api/accounts/[id]/transactions/[txId]/route.ts, lines 214-330):
trim and validate the title when present, reject an empty patch with
"No changes provided", and otherwise delegate to the stored procedure. -/
def patchFull (aid txId : Nat) (b : TxPatchBody) (l : List Txn) :
    Resp Unit × List Txn :=
  match b.title with
  | some rawTitle =>
    if (jsTrim rawTitle).length < 3 ∨ 120 < (jsTrim rawTitle).length then
      (Resp.err 400 "Title must be 3-120 characters", l)
    else patchFullRpc aid txId { b with title := some (jsTrim rawTitle) } l
  | none => patchFullRpc aid txId b l

/-! ### Account and membership handlers -/

/-- Hexadecimal digit, case-insensitive (character class `[0-9a-f]` under the
`i` flag). -/
def isHexChar (c : Char) : Bool :=
  decide (('0' ≤ c ∧ c ≤ '9') ∨ ('a' ≤ c ∧ c ≤ 'f') ∨ ('A' ≤ c ∧ c ≤ 'F'))

/-- The UUID test of the account handlers: the case-insensitive regex
`^[0-9a-f]{8}-[0-9a-f]{4}-[1-5][0-9a-f]{3}-[89ab][0-9a-f]{3}-[0-9a-f]{12}$`,
read off the character list of the string. -/
def isUuid (s : String) : Bool :=
  match s.data with
  | a1 :: a2 :: a3 :: a4 :: a5 :: a6 :: a7 :: a8 :: h1 :: b1 :: b2 :: b3 :: b4 ::
      h2 :: c1 :: c2 :: c3 :: c4 :: h3 :: d1 :: d2 :: d3 :: d4 :: h4 ::
      e1 :: e2 :: e3 :: e4 :: e5 :: e6 :: e7 :: e8 :: e9 :: e10 :: e11 :: e12 :: [] =>
    ([a1, a2, a3, a4, a5, a6, a7, a8, b1, b2, b3, b4, c2, c3, c4, d2, d3, d4,
      e1, e2, e3, e4, e5, e6, e7, e8, e9, e10, e11, e12].all isHexChar) &&
    (h1 == '-') && (h2 == '-') && (h3 == '-') && (h4 == '-') &&
    decide ('1' ≤ c1 ∧ c1 ≤ '5') &&
    (d1 == '8' || d1 == '9' || d1 == 'a' || d1 == 'b' || d1 == 'A' || d1 == 'B')
  | _ => false

/-- The `norm` helper of the account handlers: keep the entries that are
valid UUID strings and deduplicate preserving first occurrence
(`Array.from(new Set(arr.filter(...)))`); non-string entries of the raw JSON
array are modelled as strings failing the UUID test. -/
def normalizeIds (arr : List String) : List String :=
  (arr.filter isUuid).eraseDups

/-- The overlap computation of the account handlers:
`editorsClean.filter((id) => viewersClean.includes(id))`. -/
def overlapIds (editors viewers : List String) : List String :=
  editors.filter (fun i => viewers.contains i)

/-- Membership row of the `account-member` table. -/
structure Member where
  account_id : Nat
  uid : String
  type : String
deriving DecidableEq

/-- Account row of the `account` table (the fields the handlers read). -/
structure AccountRow where
  id : Nat
  title : String
  description : Option String
  created_by : String
deriving DecidableEq

/-- The part of the Store touched by the account handlers. -/
structure AccountStore where
  accounts : List AccountRow
  members : List Member
deriving DecidableEq

/-- Parsed POST body for account creation: `title` as received
(`String(body?.title ?? "")`, untrimmed), nullable description, and the raw
editors/viewers lists (a non-array field arrives as `[]`). -/
structure AccountCreateBody where
  title : String
  description : Option String
  editors : List String
  viewers : List String
deriving DecidableEq

/-- Shallow embedding of POST /api/accounts
(src/src/app/api/accounts/route.ts, lines 100-200): validate the title,
normalise the membership lists, reject an editor/viewer overlap, then insert
the account row (`newId` standing for the Store-generated id) and the
membership rows. -/
def postAccounts (body : AccountCreateBody) (creator : String) (newId : Nat)
    (st : AccountStore) : Resp AccountRow × AccountStore :=
  let title := jsTrim body.title
  if title = "" ∨ title.length < 3 ∨ 80 < title.length then
    (Resp.err 400 "Title must be 3-80 characters", st)
  else
    let editorsClean := normalizeIds body.editors
    let viewersClean := normalizeIds body.viewers
    if (overlapIds editorsClean viewersClean).length ≠ 0 then
      (Resp.err 400 "A user cannot be both EDITOR and VIEWER", st)
    else
      let row : AccountRow := ⟨newId, title, body.description, creator⟩
      (Resp.ok row,
        { accounts := st.accounts ++ [row],
          members := st.members ++
            (editorsClean.map (fun uid => Member.mk newId uid "EDITOR") ++
              viewersClean.map (fun uid => Member.mk newId uid "VIEWER")) })

/-- Parsed PATCH body for an account: `title` present iff the JSON field was
a string (carried untrimmed), `descrIsSet` iff `description` appeared in the
body, and the raw membership lists. -/
structure AccountPatchBody where
  title : Option String
  descrIsSet : Bool
  description : Option String
  editors : List String
  viewers : List String
deriving DecidableEq

/-- Row-update and membership stage of PATCH /api/accounts/[id]
(src/src/app/api/accounts/[id]/route.ts, lines 87-163): apply the
title/description patch to the matching account row (`single()` erroring when
the id matches no row), and only after that update normalise the membership
lists, reject an editor/viewer overlap — with the row update already
persisted — and otherwise replace the account's memberships wholesale
(delete-all, insert-new). -/
def patchAccountRest (aid : Nat) (titlePatch : Option String)
    (b : AccountPatchBody) (st : AccountStore) : Resp AccountRow × AccountStore :=
  match st.accounts.find? (fun a => decide (a.id = aid)) with
  | none => (Resp.err 500 "PGRST116", st)
  | some a0 =>
    let row : AccountRow :=
      { a0 with
          title := titlePatch.getD a0.title
          description := if b.descrIsSet then b.description else a0.description }
    let accounts2 := st.accounts.map (fun a => if a.id = aid then row else a)
    let editorsClean := normalizeIds b.editors
    let viewersClean := normalizeIds b.viewers
    if (overlapIds editorsClean viewersClean).length ≠ 0 then
      (Resp.err 400 "A user cannot be both EDITOR and VIEWER",
        { st with accounts := accounts2 })
    else
      (Resp.ok row,
        { accounts := accounts2,
          members := st.members.filter (fun mr => ! decide (mr.account_id = aid)) ++
            (editorsClean.map (fun uid => Member.mk aid uid "EDITOR") ++
              viewersClean.map (fun uid => Member.mk aid uid "VIEWER")) })

/-- Shallow embedding of PATCH /api/accounts/[id]
(src/src/app/api/accounts/[id]/route.ts, lines 45-171): build and validate
the title/description patch, reject an empty patch with
"No changes provided", and delegate to `patchAccountRest`. -/
def patchAccount (aid : Nat) (b : AccountPatchBody) (st : AccountStore) :
    Resp AccountRow × AccountStore :=
  match b.title with
  | some rawTitle =>
    if jsTrim rawTitle = "" ∨ (jsTrim rawTitle).length < 3 ∨ 80 < (jsTrim rawTitle).length then
      (Resp.err 400 "Title must be 3-80 characters", st)
    else patchAccountRest aid (some (jsTrim rawTitle)) b st
  | none =>
    if b.descrIsSet then patchAccountRest aid none b st
    else (Resp.err 400 "No changes provided", st)

/-! ### Timestamp resolution -/

/-- Days from the Unix epoch to the civil date `(y, m, d)` of the proleptic
Gregorian calendar (month 1-12), the day computation underlying the
ECMAScript `Date.UTC`. -/
def daysFromCivil (y : Int) (m d : Nat) : Int :=
  let yadj : Int := if m ≤ 2 then y - 1 else y
  let era : Int := yadj.fdiv 400
  let yoe : Int := yadj - era * 400
  let mp : Int := if 2 < m then (m : Int) - 3 else (m : Int) + 9
  let doy : Int := (153 * mp + 2).fdiv 5 + (d : Int) - 1
  let doe : Int := yoe * 365 + yoe.fdiv 4 - yoe.fdiv 100 + doy
  era * 146097 + doe - 719468

/-- Milliseconds since the Unix epoch of `Date.UTC(y, monthIndex, d, hh, mm)`
(ECMAScript `Date.UTC`): `MakeFullYear` maps an integer year 0-99 to
`1900 + year`; `MakeDay` then normalises the 0-based month index into a year
shift `floor(monthIndex / 12)` and a month `monthIndex modulo 12`, and adds
the date as a day offset from the 1st (day 0 is the last day of the previous
month; `daysFromCivil` is linear in `d`, matching this).  Hours and minutes
enter linearly, as in `MakeTime`. -/
def jsDateUTC (y monthIndex : Int) (d hh mm : Nat) : Int :=
  let yfull : Int := if 0 ≤ y ∧ y ≤ 99 then y + 1900 else y
  let ym : Int := yfull + monthIndex / 12
  let mn : Int := monthIndex % 12
  daysFromCivil ym (mn.toNat + 1) d * 86400000 +
    (hh : Int) * 3600000 + (mm : Int) * 60000

/-- The handlers' offset constant `IST_OFFSET_MS = 5.5 * 60 * 60 * 1000`. -/
def istOffsetMs : Int := 19800000

/-- Shallow embedding of `istLocalToUtcIso` (src/unnamed/part_002, lines
155-162, and src/src/app/api/accounts/[id]/transactions/[txId]/route.ts,
lines 242-249): the naive local string `YYYY-MM-DDTHH:MM` is split into its
five numeric fields (its shape is guaranteed by the `isNaiveLocal` regex),
read as a UTC wall-clock via `Date.UTC(y, m - 1, d, hh, mm)` — with
`Date.UTC`'s year and month coercions, so a month field `00` rolls into
December of the previous year — and shifted by `-IST_OFFSET_MS`;
`toISOString` renders the resulting instant, modelled as the instant itself
in epoch milliseconds. -/
def istLocalToUtcMs (y : Int) (m d hh mm : Nat) : Int :=
  jsDateUTC y ((m : Int) - 1) d hh mm - istOffsetMs

/-- A request's `transaction_date_time` value after the regex classification
of the handlers: an ISO string with an explicit zone designator (carried as
its UTC instant, the value `new Date(raw).getTime()`), a naive local string
`YYYY-MM-DDTHH:MM` (carried as its five numeric fields), absent
(`null`/missing), or any other shape (invalid). -/
inductive RawDate where
  | withZone (utcMs : Int)
  | naive (y : Int) (m d hh mm : Nat)
  | absent
  | invalid
deriving DecidableEq

/-- Resolution of `transaction_date_time` by the create handler
(src/unnamed/part_002, lines 169-182): an ISO-with-zone input is normalised
to its UTC instant, a naive local input goes through `istLocalToUtcIso`, an
absent input defaults to the current time `now`, and anything else is
rejected (`none`, surfaced as a 400). -/
def resolveTxDate (raw : RawDate) (now : Int) : Option Int :=
  match raw with
  | RawDate.withZone t => some t
  | RawDate.naive y m d hh mm => some (istLocalToUtcMs y m d hh mm)
  | RawDate.absent => some now
  | RawDate.invalid => none

/-- Specification-side reading of a wall-clock time at the fixed offset
UTC+05:30: the instant of the same wall-clock reading at UTC, minus 5 hours
30 minutes (expressed in minutes to keep it independent of the handler's
millisecond constant). -/
def utcInstantOfIstWallClock (y : Int) (m d hh mm : Nat) : Int :=
  (daysFromCivil y m d * 1440 + (hh : Int) * 60 + (mm : Int)) * 60000 -
    (5 * 60 + 30) * 60000

/-! ### Binary64 arithmetic of the incremental handlers -/

/-- Fuel-driven floor of log₂ on naturals (0 below 2); structural recursion
on the fuel so that it evaluates by plain reduction. -/
def natLog2Aux : Nat → Nat → Nat
  | 0, _ => 0
  | fuel + 1, n => if n ≤ 1 then 0 else natLog2Aux fuel (n / 2) + 1

/-- Floor of log₂ on naturals (the fuel `n` always suffices). -/
def natLog2 (n : Nat) : Nat := natLog2Aux n n

/-- Floor of log₂ of the positive rational `n / d` (`n`, `d` positive), via
the integer log₂ corrected by one comparison. -/
def fracFloorLog2 (n d : Nat) : Int :=
  let e0 : Int := (natLog2 n : Int) - (natLog2 d : Int)
  let ok : Bool :=
    if 0 ≤ e0 then decide (d * Nat.pow 2 e0.toNat ≤ n)
    else decide (d ≤ n * Nat.pow 2 (-e0).toNat)
  if ok then e0 else e0 - 1

/-- Round-half-to-even of the fraction `p / q` for positive `q`, on
integers — the IEEE-754 round-to-nearest-even rule. -/
def roundHalfEvenInt (p q : Int) : Int :=
  let f := p.fdiv q
  let r2 := 2 * (p - f * q)
  if r2 < q then f
  else if q < r2 then f + 1
  else if f % 2 = 0 then f else f + 1

/-- Round a rational to the nearest IEEE-754 binary64 value
(round-to-nearest, ties-to-even, 53-bit significand; normal range — the
handlers' balances live far from overflow and subnormals).  This models the
double-precision `number` arithmetic of the JavaScript route handlers. -/
def roundToDouble (q : ℚ) : ℚ :=
  if q.num = 0 then 0
  else
    let n : Nat := q.num.natAbs
    let d : Nat := q.den
    let e : Int := fracFloorLog2 n d - 52
    let m : Int :=
      if 0 ≤ e then roundHalfEvenInt (n : Int) ((d : Int) * ((Nat.pow 2 e.toNat : Nat) : Int))
      else roundHalfEvenInt ((n : Int) * ((Nat.pow 2 (-e).toNat : Nat) : Int)) (d : Int)
    let sm : Int := if q.num < 0 then -m else m
    if 0 ≤ e then mkRat (sm * ((Nat.pow 2 e.toNat : Nat) : Int)) 1
    else mkRat sm (Nat.pow 2 (-e).toNat)

/-- JavaScript addition of two binary64 values: exact rational sum, rounded
back to binary64. -/
def jsAdd (a b : ℚ) : ℚ := roundToDouble (a + b)

/-- JavaScript reading of a decimal literal (`Number(body.amount)`): the
nearest binary64 value. -/
def jsNumber (q : ℚ) : ℚ := roundToDouble q

/-- The balance computation of the incremental create handler
(src/unnamed/part_002, lines 184-206): `prevBalance + amountRaw` in
JavaScript number arithmetic, where `prevBalance` is the stored balance of
the account's latest row (`Number(latest?.balance ?? 0) || 0`). -/
def postIncrementalNewBalance (latestBalance : Option ℚ) (amountRaw : ℚ) : ℚ :=
  jsAdd (latestBalance.getD 0) amountRaw

/-! ### Helper lemmas about the ordering and the running sum -/

/-- Projection to the fields of a row that recomputation reads (everything
except the derived `balance`). -/
def txProj (t : Txn) : Nat × Nat × ℚ × Nat :=
  (t.id, t.dt, t.amount, t.account_id)

lemma txLT_of_txLE_ne {a b : Txn} (h : txLE a b) (hne : a.id ≠ b.id) : txLT a b := by
  simp only [txLE] at h; simp only [txLT]; omega

lemma not_txLE_of_txLT {a b : Txn} (h : txLT a b) : ¬ txLE b a := by
  simp only [txLT] at h; simp only [txLE]; omega

lemma txLE_refl (a : Txn) : txLE a a := Or.inr ⟨rfl, le_refl _⟩

lemma txLE_of_txLT {a b : Txn} (h : txLT a b) : txLE a b := by
  simp only [txLT] at h; simp only [txLE]; omega

lemma runningBalances_map_proj (acc : ℚ) (s : List Txn) :
    (runningBalances acc s).map txProj = s.map txProj := by
  induction s generalizing acc with
  | nil => rfl
  | cons x xs ih => simp only [runningBalances, List.map_cons, ih]; rfl

/-- Master lemma: walking a list whose keys strictly increase, the running-sum
pass assigns every row the accumulator plus the sum of the amounts of the rows
ordered at or before it. -/
lemma balance_runningBalances (s : List Txn) :
    ∀ (acc : ℚ), s.Pairwise txLT →
      ∀ t ∈ runningBalances acc s,
        t.balance = acc + ((s.filter (fun u => decide (txLE u t))).map Txn.amount).sum := by
  induction s with
  | nil => intro acc _ t ht; simp [runningBalances] at ht
  | cons x xs ih =>
    intro acc hp t ht
    rw [List.pairwise_cons] at hp
    obtain ⟨hx, hxs⟩ := hp
    rw [runningBalances] at ht
    rcases List.mem_cons.mp ht with h | h
    · subst h
      have hhead : decide (txLE x { x with balance := acc + x.amount }) = true := by
        simp only [decide_eq_true_eq]
        exact txLE_refl x
      have hnil : xs.filter
          (fun u => decide (txLE u ({ x with balance := acc + x.amount } : Txn))) = [] := by
        rw [List.filter_eq_nil_iff]
        intro u hu
        simp only [decide_eq_true_eq]
        exact not_txLE_of_txLT (hx u hu)
      rw [List.filter_cons, hhead]
      simp only [if_true, List.map_cons, List.sum_cons, hnil, List.map_nil, List.sum_nil]
      ring
    · have hkey : ∃ u ∈ xs, txProj u = txProj t := by
        have hmem : txProj t ∈ (runningBalances (acc + x.amount) xs).map txProj :=
          List.mem_map_of_mem _ h
        rw [runningBalances_map_proj] at hmem
        exact List.mem_map.mp hmem
      obtain ⟨u, hu, hut⟩ := hkey
      have hdt : u.dt = t.dt := congrArg (fun p => p.2.1) hut
      have hid : u.id = t.id := congrArg (fun p => p.1) hut
      have hxt : decide (txLE x t) = true := by
        simp only [decide_eq_true_eq]
        have := txLE_of_txLT (hx u hu)
        simp only [txLE] at this ⊢
        omega
      rw [List.filter_cons, hxt]
      simp only [if_true, List.map_cons, List.sum_cons]
      rw [ih (acc + x.amount) hxs t h]
      ring

/-- A sorted list of rows with pairwise-distinct ids has strictly increasing
keys. -/
lemma pairwise_txLT_of_sorted_nodup {s : List Txn}
    (hs : s.Sorted txLE) (hn : (s.map Txn.id).Nodup) : s.Pairwise txLT := by
  have h2 : s.Pairwise (fun a b => a.id ≠ b.id) := List.pairwise_map.mp hn
  exact (hs.and h2).imp (fun h => txLT_of_txLE_ne h.1 h.2)

lemma nodup_ids_accountTxns (aid : Nat) (l : List Txn)
    (h : (l.map Txn.id).Nodup) : ((accountTxns aid l).map Txn.id).Nodup :=
  h.sublist ((List.filter_sublist l).map Txn.id)

lemma nodup_ids_sortTx (m : List Txn)
    (h : (m.map Txn.id).Nodup) : ((sortTx m).map Txn.id).Nodup :=
  (((List.perm_insertionSort txLE m).map Txn.id).nodup_iff).mpr h

/-- Balance assigned by `fn_transaction_recompute` to each row of the account,
stated against the pre-state list: the sum of the amounts of the account's
rows ordered at or before the row. -/
lemma recompute_balance_eq (aid : Nat) (l : List Txn)
    (hids : (l.map Txn.id).Nodup) :
    ∀ t ∈ fn_transaction_recompute aid l, t.account_id = aid →
      t.balance =
        ((l.filter (fun u => decide (u.account_id = aid ∧ txLE u t))).map Txn.amount).sum := by
  intro t' ht' hacc'
  rw [fn_transaction_recompute] at ht'
  obtain ⟨t, htl, rfl⟩ := List.mem_map.mp ht'
  have hacc : t.account_id = aid := hacc'
  show newBalance (recomputeSums aid l) t =
    ((l.filter (fun u => decide (u.account_id = aid ∧ txLE u t))).map Txn.amount).sum
  have htm : t ∈ sortTx (accountTxns aid l) := by
    rw [sortTx, List.mem_insertionSort]
    exact List.mem_filter.mpr ⟨htl, by simp [hacc]⟩
  have hmn : ((sortTx (accountTxns aid l)).map Txn.id).Nodup :=
    nodup_ids_sortTx _ (nodup_ids_accountTxns aid l hids)
  have hproj : (recomputeSums aid l).map txProj = (sortTx (accountTxns aid l)).map txProj :=
    runningBalances_map_proj 0 _
  have hex : ∃ x, x ∈ recomputeSums aid l ∧ decide (x.id = t.id) = true := by
    have hmem : txProj t ∈ (recomputeSums aid l).map txProj := by
      rw [hproj]; exact List.mem_map_of_mem _ htm
    obtain ⟨u, hu, hup⟩ := List.mem_map.mp hmem
    exact ⟨u, hu, by simp only [decide_eq_true_eq]; exact congrArg (fun p => p.1) hup⟩
  cases hfind : (recomputeSums aid l).find? (fun u => decide (u.id = t.id)) with
  | none =>
    exfalso
    have hsome := List.find?_isSome.mpr hex
    rw [hfind] at hsome
    simp at hsome
  | some u =>
    have humem : u ∈ recomputeSums aid l := List.mem_of_find?_eq_some hfind
    have huid : u.id = t.id := by
      have := List.find?_some hfind
      simpa using this
    have hproju : txProj u = txProj t := by
      have hmem : txProj u ∈ (sortTx (accountTxns aid l)).map txProj := by
        rw [← hproj]; exact List.mem_map_of_mem _ humem
      obtain ⟨w, hw, hwp⟩ := List.mem_map.mp hmem
      have hwid : w.id = u.id := congrArg (fun p => p.1) hwp
      have hwt : w = t :=
        List.inj_on_of_nodup_map hmn hw htm (by rw [hwid, huid])
      rw [← hwp, hwt]
    have hudt : u.dt = t.dt := congrArg (fun p => p.2.1) hproju
    have hplt : (sortTx (accountTxns aid l)).Pairwise txLT :=
      pairwise_txLT_of_sorted_nodup (List.sorted_insertionSort txLE _) hmn
    have hbal : u.balance =
        0 + (((sortTx (accountTxns aid l)).filter
          (fun v => decide (txLE v u))).map Txn.amount).sum :=
      balance_runningBalances _ 0 hplt u humem
    have hfc : (sortTx (accountTxns aid l)).filter (fun v => decide (txLE v u)) =
        (sortTx (accountTxns aid l)).filter (fun v => decide (txLE v t)) := by
      apply List.filter_congr
      intro v _
      rw [decide_eq_decide]
      simp only [txLE, hudt, huid]
    have hperm : List.Perm
        ((sortTx (accountTxns aid l)).filter (fun v => decide (txLE v t)))
        ((accountTxns aid l).filter (fun v => decide (txLE v t))) :=
      (List.perm_insertionSort txLE _).filter _
    have hcomp : (accountTxns aid l).filter (fun v => decide (txLE v t)) =
        l.filter (fun u => decide (u.account_id = aid ∧ txLE u t)) := by
      rw [accountTxns, List.filter_filter]
      apply List.filter_congr
      intro v _
      simp [Bool.and_comm]
    rw [newBalance, hfind]
    show u.balance = _
    rw [hbal, zero_add, hfc, ← hcomp]
    exact ((hperm.map Txn.amount).sum_eq)

/-- The recompute update rewrites only `balance`: filtering by a predicate
that ignores `balance` and then reading `amount` gives the same list before
and after recomputation. -/
lemma recompute_filter_map_amount (aid : Nat) (l : List Txn)
    (p : Txn → Bool) (hp : ∀ t b, p { t with balance := b } = p t) :
    ((fn_transaction_recompute aid l).filter p).map Txn.amount =
      (l.filter p).map Txn.amount := by
  rw [fn_transaction_recompute, List.filter_map, List.map_map]
  have hpe : (p ∘ fun t => { t with balance := newBalance (recomputeSums aid l) t }) = p := by
    funext t
    exact hp t _
  rw [hpe]
  rfl

/-- C1: after `recompute(account_id)` completes for any account, every
transaction of that account has `balance` equal to the prefix sum of `amount`
over the account's transactions ordered ascending by
`(transaction_date_time, id)`, up to and including itself.  The pre-state `l`
is arbitrary, so this holds regardless of how many out-of-order inserts,
edits, or deletes preceded the call; ids are the generated primary key of the
`transaction` table and hence pairwise distinct. -/
theorem recompute_restores_prefix_sum_invariant (aid : Nat) (l : List Txn)
    (hids : (l.map Txn.id).Nodup) :
    ∀ t ∈ fn_transaction_recompute aid l, t.account_id = aid →
      t.balance =
        (((fn_transaction_recompute aid l).filter
          (fun u => decide (u.account_id = aid ∧ txLE u t))).map Txn.amount).sum := by
  intro t ht hacc
  rw [recompute_filter_map_amount aid l
    (fun u => decide (u.account_id = aid ∧ txLE u t)) (fun x b => rfl)]
  exact recompute_balance_eq aid l hids t ht hacc

/-- Witness for C1: a concrete account with three out-of-order rows. -/
theorem recompute_restores_prefix_sum_invariant_witness :
    (([⟨2, 1, "u", 20, -30, 70, "B", none⟩,
       ⟨1, 1, "u", 10, 100, 100, "A", none⟩,
       ⟨3, 1, "u", 5, 50, 0, "C", none⟩] : List Txn).map Txn.id).Nodup ∧
      (∀ t ∈ fn_transaction_recompute 1
          [⟨2, 1, "u", 20, -30, 70, "B", none⟩,
           ⟨1, 1, "u", 10, 100, 100, "A", none⟩,
           ⟨3, 1, "u", 5, 50, 0, "C", none⟩], t.account_id = 1 →
        t.balance =
          (((fn_transaction_recompute 1
              [⟨2, 1, "u", 20, -30, 70, "B", none⟩,
               ⟨1, 1, "u", 10, 100, 100, "A", none⟩,
               ⟨3, 1, "u", 5, 50, 0, "C", none⟩]).filter
            (fun u => decide (u.account_id = 1 ∧ txLE u t))).map Txn.amount).sum) :=
  ⟨by decide, recompute_restores_prefix_sum_invariant 1 _ (by decide)⟩

/-! ### Idempotence of recompute -/

lemma accountTxns_map_setBalance (aid : Nat) (f : Txn → ℚ) (l : List Txn) :
    accountTxns aid (l.map (fun u => { u with balance := f u })) =
      (accountTxns aid l).map (fun u => { u with balance := f u }) := by
  rw [accountTxns, accountTxns, List.filter_map]
  rfl

lemma runningBalances_map_setBalance (f : Txn → ℚ) (acc : ℚ) (xs : List Txn) :
    runningBalances acc (xs.map (fun u => { u with balance := f u })) =
      runningBalances acc xs := by
  induction xs generalizing acc with
  | nil => rfl
  | cons x xs ih => simp only [List.map_cons, runningBalances, ih]

lemma newBalance_self (s : List Txn) (t : Txn) :
    newBalance s { t with balance := newBalance s t } = newBalance s t := by
  simp only [newBalance]
  cases List.find? (fun u => decide (u.id = t.id)) s <;> rfl

lemma sortTx_map_setBalance (f : Txn → ℚ) (l : List Txn) :
    sortTx (l.map (fun u => { u with balance := f u })) =
      (sortTx l).map (fun u => { u with balance := f u }) :=
  (List.map_insertionSort txLE txLE
    (fun u => { u with balance := f u }) l (fun _ _ _ _ => Iff.rfl)).symm

lemma recomputeSums_recompute (aid : Nat) (l : List Txn) :
    recomputeSums aid (fn_transaction_recompute aid l) = recomputeSums aid l := by
  rw [fn_transaction_recompute, recomputeSums, recomputeSums, accountTxns_map_setBalance,
    sortTx_map_setBalance, runningBalances_map_setBalance]

/-- C2: `recompute(account_id)` is idempotent — calling it a second time with
no intervening mutation leaves every transaction's balance exactly as the
first call left it, for every account state. -/
theorem recompute_idempotent (aid : Nat) (l : List Txn) :
    fn_transaction_recompute aid (fn_transaction_recompute aid l) =
      fn_transaction_recompute aid l := by
  conv_lhs => rw [fn_transaction_recompute]
  rw [recomputeSums_recompute aid l]
  rw [fn_transaction_recompute, List.map_map]
  apply List.map_congr_left
  intro t _
  simp only [Function.comp_apply, newBalance_self]

/-! ### Backdated creation -/

/-- C3: given an account holding exactly T1 (amount 100 at time `t1`, balance
100) and T2 (amount -30 at time `t2 > t1`, balance 70), creating a backdated
transaction T0 (amount 50 at time `t0 < t1`) through
`fn_transaction_create_and_recompute` succeeds and leaves balances T0 = 50,
T1 = 150, T2 = 120; the created row is also returned with balance 50. -/
theorem backdated_create_balances (aid i0 i1 i2 t0 t1 t2 : Nat)
    (h01 : t0 < t1) (h12 : t1 < t2)
    (hi01 : i0 ≠ i1) (hi02 : i0 ≠ i2) (hi12 : i1 ≠ i2) :
    fn_transaction_create_and_recompute aid i0 "u" "T0" none 50 t0
      [⟨i1, aid, "u", t1, 100, 100, "T1", none⟩,
       ⟨i2, aid, "u", t2, -30, 70, "T2", none⟩] =
    ([⟨i1, aid, "u", t1, 100, 150, "T1", none⟩,
      ⟨i2, aid, "u", t2, -30, 120, "T2", none⟩,
      ⟨i0, aid, "u", t0, 50, 50, "T0", none⟩],
     some ⟨i0, aid, "u", t0, 50, 50, "T0", none⟩) := by
  have hA : ¬ (t2 < t0 ∨ (t2 = t0 ∧ i2 ≤ i0)) := by omega
  have hB : ¬ (t1 < t0 ∨ (t1 = t0 ∧ i1 ≤ i0)) := by omega
  have hC : (t1 < t2 ∨ (t1 = t2 ∧ i1 ≤ i2)) := Or.inl h12
  simp only [fn_transaction_create_and_recompute, fn_transaction_recompute, recomputeSums,
    accountTxns, sortTx, newBalance, runningBalances, txLE,
    List.cons_append, List.nil_append,
    List.filter_cons, List.filter_nil, List.insertionSort, List.orderedInsert,
    List.map_cons, List.map_nil, List.find?,
    decide_eq_true_eq, hA, hB, hC, hi01, hi02, hi12, Ne.symm hi01, Ne.symm hi02,
    if_true, if_false, decide_True, decide_False]
  norm_num

/-- Witness for C3 at concrete times 5 < 10 < 20 and ids 3, 1, 2. -/
theorem backdated_create_balances_witness :
    ((5 : Nat) < 10 ∧ (10 : Nat) < 20 ∧ (3 : Nat) ≠ 1 ∧ (3 : Nat) ≠ 2 ∧ (1 : Nat) ≠ 2) ∧
      fn_transaction_create_and_recompute 7 3 "u" "T0" none 50 5
        [⟨1, 7, "u", 10, 100, 100, "T1", none⟩,
         ⟨2, 7, "u", 20, -30, 70, "T2", none⟩] =
      ([⟨1, 7, "u", 10, 100, 150, "T1", none⟩,
        ⟨2, 7, "u", 20, -30, 120, "T2", none⟩,
        ⟨3, 7, "u", 5, 50, 50, "T0", none⟩],
       some ⟨3, 7, "u", 5, 50, 50, "T0", none⟩) :=
  ⟨by decide,
   backdated_create_balances 7 3 1 2 5 10 20 (by decide) (by decide)
     (by decide) (by decide) (by decide)⟩

/-! ### Gate and error behaviour of the handlers -/

/-- C4: in the incremental design variant, a PATCH or DELETE on a transaction
of the account that is not the account's latest one (ordered by
`transaction_date_time` descending, then `id` descending) is rejected with
HTTP 409 and the error "Only latest transaction can be modified", and the
transaction table is unchanged by the rejected request. -/
theorem non_latest_modification_rejected (aid txId : Nat) (b : TxPatchBody)
    (l : List Txn) (tx m : Txn)
    (htx : tx ∈ l) (hacc : tx.account_id = aid) (hid : tx.id = txId)
    (hlatest : latestTx aid l = some m) (hne : m.id ≠ txId) :
    patchIncremental aid txId b l =
        (Resp.err 409 "Only latest transaction can be modified", l) ∧
      deleteIncremental aid txId l =
        (Resp.err 409 "Only latest transaction can be modified", l) := by
  refine ⟨?_, ?_⟩
  · rw [patchIncremental, hlatest]
    simp [hne]
  · rw [deleteIncremental, hlatest]
    simp [hne]

/-- Witness for C4: a two-row account where the target (id 1) is not the
latest row (id 2, later timestamp). -/
theorem non_latest_modification_rejected_witness :
    ((⟨1, 1, "u", 10, 5, 5, "A", none⟩ : Txn) ∈
        ([⟨1, 1, "u", 10, 5, 5, "A", none⟩, ⟨2, 1, "u", 20, 3, 8, "B", none⟩] : List Txn) ∧
      latestTx 1 [⟨1, 1, "u", 10, 5, 5, "A", none⟩, ⟨2, 1, "u", 20, 3, 8, "B", none⟩] =
        some ⟨2, 1, "u", 20, 3, 8, "B", none⟩) ∧
      (patchIncremental 1 1 ⟨none, false, none, none, none⟩
          [⟨1, 1, "u", 10, 5, 5, "A", none⟩, ⟨2, 1, "u", 20, 3, 8, "B", none⟩] =
        (Resp.err 409 "Only latest transaction can be modified",
          [⟨1, 1, "u", 10, 5, 5, "A", none⟩, ⟨2, 1, "u", 20, 3, 8, "B", none⟩]) ∧
        deleteIncremental 1 1
          [⟨1, 1, "u", 10, 5, 5, "A", none⟩, ⟨2, 1, "u", 20, 3, 8, "B", none⟩] =
        (Resp.err 409 "Only latest transaction can be modified",
          [⟨1, 1, "u", 10, 5, 5, "A", none⟩, ⟨2, 1, "u", 20, 3, 8, "B", none⟩])) :=
  ⟨⟨by decide, by decide⟩,
   non_latest_modification_rejected 1 1 ⟨none, false, none, none, none⟩ _
     ⟨1, 1, "u", 10, 5, 5, "A", none⟩ ⟨2, 1, "u", 20, 3, 8, "B", none⟩
     (by decide) (by decide) (by decide) (by decide) (by decide)⟩

/-- C5: the stored-procedure update raises `Transaction not found` when
`tx_id` does not identify a transaction belonging to `account_id`, and the
exception aborts the enclosing transaction, so no field change and no
balance change is applied. -/
theorem update_not_found_unchanged (aid txId : Nat) (title : Option String)
    (descr : Option String) (amount : Option ℚ) (dt : Option Nat)
    (descrIsSet : Bool) (l : List Txn)
    (h : ∀ t ∈ l, ¬ (t.id = txId ∧ t.account_id = aid)) :
    fn_transaction_update_and_recompute aid txId title descr amount dt descrIsSet l =
        Except.error "Transaction not found" ∧
      applyTxUpdate aid txId title descr amount dt descrIsSet l = l := by
  have hany : (l.any (fun t => decide (t.id = txId ∧ t.account_id = aid))) = false := by
    simp only [List.any_eq_false, decide_eq_true_eq, not_and]
    intro t ht h1 h2
    exact h t ht ⟨h1, h2⟩
  have hcond : ¬ ((l.any fun t => decide (t.id = txId ∧ t.account_id = aid)) = true) := by
    rw [hany]
    simp
  refine ⟨?_, ?_⟩
  · rw [fn_transaction_update_and_recompute, if_neg hcond]
  · rw [applyTxUpdate, fn_transaction_update_and_recompute, if_neg hcond]

/-- Witness for C5: updating tx 5 in an account that only holds tx 1. -/
theorem update_not_found_unchanged_witness :
    (∀ t ∈ ([⟨1, 1, "u", 10, 2, 2, "A", none⟩] : List Txn), ¬ (t.id = 5 ∧ t.account_id = 1)) ∧
      (fn_transaction_update_and_recompute 1 5 (some "New") none none none false
          [⟨1, 1, "u", 10, 2, 2, "A", none⟩] =
        Except.error "Transaction not found" ∧
        applyTxUpdate 1 5 (some "New") none none none false
          [⟨1, 1, "u", 10, 2, 2, "A", none⟩] =
        [⟨1, 1, "u", 10, 2, 2, "A", none⟩]) :=
  ⟨by decide,
   update_not_found_unchanged 1 5 (some "New") none none none false _ (by decide)⟩

/-- C6: a transaction update request that provides none of the four mutable
fields (title, description, amount, transaction_date_time) is rejected with
HTTP 400 and "No changes provided", with no store mutation, rather than
succeeding silently — in the full-recompute PATCH handler for every state,
and in the incremental PATCH handler whenever its latest-transaction gate
passes. -/
theorem empty_patch_rejected (aid txId : Nat) (b : TxPatchBody) (l : List Txn)
    (ht : b.title = none) (hd : ¬ b.descrIsSet) (ha : b.amount = none)
    (hdt : b.dt = none) :
    patchFull aid txId b l = (Resp.err 400 "No changes provided", l) ∧
      ∀ m, latestTx aid l = some m → m.id = txId →
        patchIncremental aid txId b l = (Resp.err 400 "No changes provided", l) := by
  refine ⟨?_, ?_⟩
  · rw [patchFull, ht]
    simp [patchFullRpc, ht, hd, ha, hdt]
  · intro m hm hid
    rw [patchIncremental, hm]
    simp [hid, ht, patchIncrementalRest, hd, ha, hdt]

/-- Witness for C6: an empty body against a one-row account whose only row
is the latest (id 2). -/
theorem empty_patch_rejected_witness :
    ((⟨none, false, none, none, none⟩ : TxPatchBody).title = none ∧
      ¬ (⟨none, false, none, none, none⟩ : TxPatchBody).descrIsSet ∧
      (⟨none, false, none, none, none⟩ : TxPatchBody).amount = none ∧
      (⟨none, false, none, none, none⟩ : TxPatchBody).dt = none) ∧
      (patchFull 1 2 ⟨none, false, none, none, none⟩
          [⟨2, 1, "u", 10, 4, 4, "A", none⟩] =
        (Resp.err 400 "No changes provided", [⟨2, 1, "u", 10, 4, 4, "A", none⟩]) ∧
        ∀ m, latestTx 1 [⟨2, 1, "u", 10, 4, 4, "A", none⟩] = some m → m.id = 2 →
          patchIncremental 1 2 ⟨none, false, none, none, none⟩
            [⟨2, 1, "u", 10, 4, 4, "A", none⟩] =
          (Resp.err 400 "No changes provided", [⟨2, 1, "u", 10, 4, 4, "A", none⟩])) :=
  ⟨⟨by decide, by decide, by decide, by decide⟩,
   empty_patch_rejected 1 2 ⟨none, false, none, none, none⟩ _
     (by decide) (by decide) (by decide) (by decide)⟩

/-! ### Numeric semantics: exact recompute vs binary64 handlers -/

/-- The incremental create handler's balance for stored amount 0.1 plus new
amount 0.2 — both already binary64 readings of their decimal literals — is
not the exact decimal sum 0.3: binary64 addition rounds to
1351079888211149 / 2^52, while the exact sum is 3/10. -/
lemma jsAdd_tenth_fifth_rounds :
    postIncrementalNewBalance (some (jsNumber (1/10))) (jsNumber (2/10)) ≠ 1/10 + 2/10 := by
  have e1 : (1 / 10 : ℚ) = mkRat 1 10 := by
    refine Rat.ext ?_ ?_
    · have h1 : ((1 / 10 : ℚ)).num = 1 := by with_unfolding_all decide
      have h2 : (mkRat 1 10).num = 1 := by decide
      exact h1.trans h2.symm
    · have h1 : ((1 / 10 : ℚ)).den = 10 := by with_unfolding_all decide
      have h2 : (mkRat 1 10).den = 10 := by decide
      exact h1.trans h2.symm
  have e2 : (2 / 10 : ℚ) = mkRat 2 10 := by
    refine Rat.ext ?_ ?_
    · have h1 : ((2 / 10 : ℚ)).num = 1 := by with_unfolding_all decide
      have h2 : (mkRat 2 10).num = 1 := by decide
      exact h1.trans h2.symm
    · have h1 : ((2 / 10 : ℚ)).den = 5 := by with_unfolding_all decide
      have h2 : (mkRat 2 10).den = 5 := by decide
      exact h1.trans h2.symm
  have ha : jsNumber (1/10) = mkRat 3602879701896397 36028797018963968 := by
    rw [jsNumber, e1]
    refine Rat.ext ?_ ?_ <;> decide
  have hb : jsNumber (2/10) = mkRat 3602879701896397 18014398509481984 := by
    rw [jsNumber, e2]
    refine Rat.ext ?_ ?_ <;> decide
  have hsum : mkRat 3602879701896397 36028797018963968 +
      mkRat 3602879701896397 18014398509481984 =
      mkRat 10808639105689191 36028797018963968 := by
    refine Rat.ext ?_ ?_ <;> with_unfolding_all decide
  have hL : postIncrementalNewBalance (some (jsNumber (1/10))) (jsNumber (2/10)) =
      roundToDouble (mkRat 10808639105689191 36028797018963968) := by
    rw [show postIncrementalNewBalance (some (jsNumber (1/10))) (jsNumber (2/10)) =
        jsAdd (jsNumber (1/10)) (jsNumber (2/10)) from rfl, ha, hb, jsAdd, hsum]
  intro hEq
  rw [hL] at hEq
  have h3 : (roundToDouble (mkRat 10808639105689191 36028797018963968)).num =
      1351079888211149 := by decide
  have h4 : ((1 : ℚ)/10 + 2/10).num = 3 := by with_unfolding_all decide
  rw [hEq, h4] at h3
  exact absurd h3 (by decide)

/-- C7 counterexample: the claim that all balance computation — including the
per-mutation updates of the route handlers — is exact decimal arithmetic with
no rounding error fails at amounts 0.1 and 0.2: the incremental create
handler (which computes `Number(latest.balance) + amountRaw` in JavaScript
binary64) stores a balance different from the exact decimal sum 0.3. -/
theorem balance_float_claim_false :
    postIncrementalNewBalance (some (jsNumber (1/10))) (jsNumber (2/10)) ≠ 1/10 + 2/10 :=
  jsAdd_tenth_fifth_rounds

/-- C7 amended: the Store-side recompute performs the running sum in the
Store's exact numeric type (modelled by ℚ), so recomputed balances are exact
prefix sums with no rounding error; the incremental route handlers, by
contrast, compute per-mutation balances in IEEE-754 binary64, which already
differs from the exact decimal sum on amounts 0.1 and 0.2. -/
theorem store_recompute_exact_incremental_rounds (aid : Nat) (l : List Txn)
    (hids : (l.map Txn.id).Nodup) :
    (∀ t ∈ fn_transaction_recompute aid l, t.account_id = aid →
        t.balance =
          ((l.filter (fun u => decide (u.account_id = aid ∧ txLE u t))).map
            Txn.amount).sum) ∧
      postIncrementalNewBalance (some (jsNumber (1/10))) (jsNumber (2/10)) ≠ 1/10 + 2/10 :=
  ⟨recompute_balance_eq aid l hids, jsAdd_tenth_fifth_rounds⟩

/-- Witness for the amended C7 at a concrete one-row account. -/
theorem store_recompute_exact_incremental_rounds_witness :
    (([⟨1, 1, "u", 10, 100, 100, "A", none⟩] : List Txn).map Txn.id).Nodup ∧
      ((∀ t ∈ fn_transaction_recompute 1 [⟨1, 1, "u", 10, 100, 100, "A", none⟩],
          t.account_id = 1 →
          t.balance =
            (([⟨1, 1, "u", 10, 100, 100, "A", none⟩].filter
              (fun u => decide (u.account_id = 1 ∧ txLE u t))).map Txn.amount).sum) ∧
        postIncrementalNewBalance (some (jsNumber (1/10))) (jsNumber (2/10)) ≠ 1/10 + 2/10) :=
  ⟨by decide, store_recompute_exact_incremental_rounds 1 _ (by decide)⟩

/-! ### Timestamp semantics -/

/-- C8 counterexample: the claim that every naive local input is stored as
its wall-clock time interpreted at fixed offset UTC+05:30 fails at the
regex-valid input "0050-01-15T10:00": ECMAScript `Date.UTC` first maps the
integer year 50 to 1950 (`MakeFullYear`), so the handler stores a 1950
instant, not the year-50 wall-clock reading shifted by 5 hours 30 minutes. -/
theorem naive_small_year_not_wall_clock :
    resolveTxDate (RawDate.naive 50 1 15 10 0) 0 ≠
      some (utcInstantOfIstWallClock 50 1 15 10 0) := by decide

/-- C8 amended: for a naive local `YYYY-MM-DDTHH:MM` input denoting a real
calendar date with year at least 100 and month 01-12, the stored timestamp
is that wall-clock time interpreted at fixed offset UTC+05:30 — the UTC
instant obtained by subtracting 5 hours 30 minutes; a year 0-99 is first
mapped to 1900+year by `Date.UTC`'s `MakeFullYear` (year 50 stores the 1950
instant, fifth conjunct), and a month field `00` rolls into December of the
previous year (last conjunct); an input with an explicit zone is normalised
to its UTC instant; on create, an absent value defaults to the current time.
The fourth conjunct anchors the calendar arithmetic at a concrete date:
2024-01-15T10:00 naive becomes 2024-01-15T04:30:00Z. -/
theorem naive_timestamps_use_ist_offset (y : Int) (m d hh mm : Nat) (t now : Int)
    (hy : 100 ≤ y) (hm1 : 1 ≤ m) (hm2 : m ≤ 12) :
    resolveTxDate (RawDate.naive y m d hh mm) now =
        some (utcInstantOfIstWallClock y m d hh mm) ∧
      resolveTxDate (RawDate.withZone t) now = some t ∧
      resolveTxDate RawDate.absent now = some now ∧
      istLocalToUtcMs 2024 1 15 10 0 = 1705293000000 ∧
      istLocalToUtcMs 50 1 15 10 0 = istLocalToUtcMs 1950 1 15 10 0 ∧
      istLocalToUtcMs 2024 0 15 10 0 = istLocalToUtcMs 2023 12 15 10 0 := by
  refine ⟨?_, rfl, rfl, by decide, by decide, by decide⟩
  have hyf : ¬ (0 ≤ y ∧ y ≤ 99) := by omega
  have hdiv : ((m : Int) - 1) / 12 = 0 := by omega
  have hmod : ((m : Int) - 1) % 12 = (m : Int) - 1 := by omega
  have htn : ((m : Int) - 1).toNat + 1 = m := by omega
  simp only [resolveTxDate, istLocalToUtcMs, jsDateUTC, utcInstantOfIstWallClock,
    istOffsetMs, if_neg hyf, hdiv, hmod, htn, add_zero]
  norm_num
  ring

/-- Witness for the amended C8 at the concrete naive input
2024-01-15T10:00. -/
theorem naive_timestamps_use_ist_offset_witness :
    ((100 : Int) ≤ 2024 ∧ (1 : Nat) ≤ 1 ∧ (1 : Nat) ≤ 12) ∧
      (resolveTxDate (RawDate.naive 2024 1 15 10 0) 777 =
          some (utcInstantOfIstWallClock 2024 1 15 10 0) ∧
        resolveTxDate (RawDate.withZone 55) 777 = some 55 ∧
        resolveTxDate RawDate.absent 777 = some 777 ∧
        istLocalToUtcMs 2024 1 15 10 0 = 1705293000000 ∧
        istLocalToUtcMs 50 1 15 10 0 = istLocalToUtcMs 1950 1 15 10 0 ∧
        istLocalToUtcMs 2024 0 15 10 0 = istLocalToUtcMs 2023 12 15 10 0) :=
  ⟨⟨by decide, by decide, by decide⟩,
   naive_timestamps_use_ist_offset 2024 1 15 10 0 55 777 (by decide) (by decide)
     (by decide)⟩

/-! ### Membership exclusivity -/

/-- C9: an account create or update request whose editors and viewers lists
contain a common user id fails with HTTP 400
"A user cannot be both EDITOR and VIEWER" and inserts, deletes, or modifies
no membership row.  For the create, the title must pass its earlier
validation; for the update, the account must exist and the patch must be
nonempty (here: a description change) — otherwise the request fails even
earlier, still without touching any membership row. -/
theorem editor_viewer_overlap_rejected
    (body : AccountCreateBody) (creator : String) (newId : Nat)
    (aid : Nat) (pb : AccountPatchBody) (st : AccountStore) (a0 : AccountRow) (u v : String)
    (hu1 : u ∈ normalizeIds body.editors) (hu2 : u ∈ normalizeIds body.viewers)
    (hv1 : v ∈ normalizeIds pb.editors) (hv2 : v ∈ normalizeIds pb.viewers)
    (htitle : ¬ (jsTrim body.title = "" ∨ (jsTrim body.title).length < 3 ∨
      80 < (jsTrim body.title).length))
    (hpt : pb.title = none) (hpd : pb.descrIsSet)
    (hfind : st.accounts.find? (fun a => decide (a.id = aid)) = some a0) :
    postAccounts body creator newId st =
        (Resp.err 400 "A user cannot be both EDITOR and VIEWER", st) ∧
      (patchAccount aid pb st).1 =
          Resp.err 400 "A user cannot be both EDITOR and VIEWER" ∧
      (patchAccount aid pb st).2.members = st.members := by
  have hov1 : (overlapIds (normalizeIds body.editors) (normalizeIds body.viewers)).length ≠ 0 := by
    have hmem : u ∈ overlapIds (normalizeIds body.editors) (normalizeIds body.viewers) := by
      rw [overlapIds, List.mem_filter]
      exact ⟨hu1, by simpa using hu2⟩
    exact (List.length_pos.mpr (List.ne_nil_of_mem hmem)).ne'
  have hov2 : (overlapIds (normalizeIds pb.editors) (normalizeIds pb.viewers)).length ≠ 0 := by
    have hmem : v ∈ overlapIds (normalizeIds pb.editors) (normalizeIds pb.viewers) := by
      rw [overlapIds, List.mem_filter]
      exact ⟨hv1, by simpa using hv2⟩
    exact (List.length_pos.mpr (List.ne_nil_of_mem hmem)).ne'
  refine ⟨?_, ?_⟩
  · rw [postAccounts, if_neg htitle, if_pos hov1]
  · simp only [patchAccount, hpt, hpd, if_true, patchAccountRest, hfind, hov2,
      ne_eq, not_false_eq_true, if_pos]
    exact ⟨trivial, trivial⟩

/-- Witness for C9: overlapping lists sharing one valid UUID, against a
one-account store. -/
theorem editor_viewer_overlap_rejected_witness :
    ("aaaaaaaa-aaaa-1aaa-8aaa-aaaaaaaaaaaa" ∈
        normalizeIds ["aaaaaaaa-aaaa-1aaa-8aaa-aaaaaaaaaaaa"] ∧
      ¬ (jsTrim "Ledger" = "" ∨ (jsTrim "Ledger").length < 3 ∨ 80 < (jsTrim "Ledger").length) ∧
      (AccountStore.mk [⟨7, "Old", none, "adm"⟩] []).accounts.find?
        (fun a => decide (a.id = 7)) = some ⟨7, "Old", none, "adm"⟩) ∧
      (postAccounts
          ⟨"Ledger", none, ["aaaaaaaa-aaaa-1aaa-8aaa-aaaaaaaaaaaa"],
            ["aaaaaaaa-aaaa-1aaa-8aaa-aaaaaaaaaaaa"]⟩ "adm" 9
          (AccountStore.mk [⟨7, "Old", none, "adm"⟩] []) =
        (Resp.err 400 "A user cannot be both EDITOR and VIEWER",
          AccountStore.mk [⟨7, "Old", none, "adm"⟩] []) ∧
        (patchAccount 7
          ⟨none, true, some "d", ["aaaaaaaa-aaaa-1aaa-8aaa-aaaaaaaaaaaa"],
            ["aaaaaaaa-aaaa-1aaa-8aaa-aaaaaaaaaaaa"]⟩
          (AccountStore.mk [⟨7, "Old", none, "adm"⟩] [])).1 =
          Resp.err 400 "A user cannot be both EDITOR and VIEWER" ∧
        (patchAccount 7
          ⟨none, true, some "d", ["aaaaaaaa-aaaa-1aaa-8aaa-aaaaaaaaaaaa"],
            ["aaaaaaaa-aaaa-1aaa-8aaa-aaaaaaaaaaaa"]⟩
          (AccountStore.mk [⟨7, "Old", none, "adm"⟩] [])).2.members =
          (AccountStore.mk [⟨7, "Old", none, "adm"⟩] []).members) :=
  ⟨⟨by decide, by decide, by decide⟩,
   editor_viewer_overlap_rejected
     ⟨"Ledger", none, ["aaaaaaaa-aaaa-1aaa-8aaa-aaaaaaaaaaaa"],
       ["aaaaaaaa-aaaa-1aaa-8aaa-aaaaaaaaaaaa"]⟩ "adm" 9 7
     ⟨none, true, some "d", ["aaaaaaaa-aaaa-1aaa-8aaa-aaaaaaaaaaaa"],
       ["aaaaaaaa-aaaa-1aaa-8aaa-aaaaaaaaaaaa"]⟩
     (AccountStore.mk [⟨7, "Old", none, "adm"⟩] []) ⟨7, "Old", none, "adm"⟩
     "aaaaaaaa-aaaa-1aaa-8aaa-aaaaaaaaaaaa" "aaaaaaaa-aaaa-1aaa-8aaa-aaaaaaaaaaaa"
     (by decide) (by decide) (by decide) (by decide) (by decide) (by decide)
     (by decide) (by decide)⟩

/-- C10: on PATCH /accounts/{id} with a valid title change and overlapping
editors/viewers lists, the account row update runs before the overlap check,
so the 400 validation response is returned with the title change already
persisted while the membership rows are untouched — the error response is
not atomic with respect to the account row. -/
theorem overlap_error_persists_row_update
    (aid : Nat) (pb : AccountPatchBody) (st : AccountStore) (a0 : AccountRow)
    (v rawT : String)
    (hv1 : v ∈ normalizeIds pb.editors) (hv2 : v ∈ normalizeIds pb.viewers)
    (hptitle : pb.title = some rawT)
    (hT : ¬ (jsTrim rawT = "" ∨ (jsTrim rawT).length < 3 ∨ 80 < (jsTrim rawT).length))
    (hfind : st.accounts.find? (fun a => decide (a.id = aid)) = some a0) :
    patchAccount aid pb st =
      (Resp.err 400 "A user cannot be both EDITOR and VIEWER",
        { st with
            accounts := st.accounts.map (fun a =>
              if a.id = aid then
                { a0 with
                    title := jsTrim rawT
                    description :=
                      if pb.descrIsSet then pb.description else a0.description }
              else a) }) := by
  have hov : (overlapIds (normalizeIds pb.editors) (normalizeIds pb.viewers)).length ≠ 0 := by
    have hmem : v ∈ overlapIds (normalizeIds pb.editors) (normalizeIds pb.viewers) := by
      rw [overlapIds, List.mem_filter]
      exact ⟨hv1, by simpa using hv2⟩
    exact (List.length_pos.mpr (List.ne_nil_of_mem hmem)).ne'
  simp only [patchAccount, hptitle, hT, if_false, patchAccountRest, hfind, hov,
    ne_eq, not_false_eq_true, if_pos, or_self]
  rfl

/-- Witness for C10: the title change "New Title" is persisted in the
account row even though the request is answered with 400. -/
theorem overlap_error_persists_row_update_witness :
    (("aaaaaaaa-aaaa-1aaa-8aaa-aaaaaaaaaaaa" ∈
        normalizeIds ["aaaaaaaa-aaaa-1aaa-8aaa-aaaaaaaaaaaa"]) ∧
      ¬ (jsTrim "New Title" = "" ∨ (jsTrim "New Title").length < 3 ∨
        80 < (jsTrim "New Title").length) ∧
      (AccountStore.mk [⟨7, "Old", none, "adm"⟩]
        [⟨7, "bbbbbbbb-bbbb-2bbb-9bbb-bbbbbbbbbbbb", "EDITOR"⟩]).accounts.find?
        (fun a => decide (a.id = 7)) = some ⟨7, "Old", none, "adm"⟩) ∧
      patchAccount 7
        ⟨some "New Title", false, none, ["aaaaaaaa-aaaa-1aaa-8aaa-aaaaaaaaaaaa"],
          ["aaaaaaaa-aaaa-1aaa-8aaa-aaaaaaaaaaaa"]⟩
        (AccountStore.mk [⟨7, "Old", none, "adm"⟩]
          [⟨7, "bbbbbbbb-bbbb-2bbb-9bbb-bbbbbbbbbbbb", "EDITOR"⟩]) =
      (Resp.err 400 "A user cannot be both EDITOR and VIEWER",
        AccountStore.mk [⟨7, "New Title", none, "adm"⟩]
          [⟨7, "bbbbbbbb-bbbb-2bbb-9bbb-bbbbbbbbbbbb", "EDITOR"⟩]) := by
  refine ⟨⟨by decide, by decide, by decide⟩, ?_⟩
  have h := overlap_error_persists_row_update 7
    ⟨some "New Title", false, none, ["aaaaaaaa-aaaa-1aaa-8aaa-aaaaaaaaaaaa"],
      ["aaaaaaaa-aaaa-1aaa-8aaa-aaaaaaaaaaaa"]⟩
    (AccountStore.mk [⟨7, "Old", none, "adm"⟩]
      [⟨7, "bbbbbbbb-bbbb-2bbb-9bbb-bbbbbbbbbbbb", "EDITOR"⟩])
    ⟨7, "Old", none, "adm"⟩ "aaaaaaaa-aaaa-1aaa-8aaa-aaaaaaaaaaaa" "New Title"
    (by decide) (by decide) (by decide) (by decide) (by decide)
  rw [h]
  refine congrArg _ ?_
  refine congrArg _ ?_
  decide

end CashAccount
